import Mathlib

/-!
Shallow embedding of the SqlQuery-Agent repository (JavaScript) in Lean 4.

Embedded source files:
- src/lib/tools/safetyChecker.js : the pure SQL safety validator
  (`checkQuerySafety`), the core of the system.
- src/lib/tools/queryExecutor.js : the pure query-rewriting half of
  `executeQuerySafe` (the LIMIT-appending rule).
- src/lib/agent.js              : the orchestrator `sqlQueryAgent`
  (refinement loop), with the external collaborators (schema extraction,
  LLM generation, pool.query, summarization) modelled as oracles.

Strings are modelled as Lean `String`s / `List Char`; the JavaScript regexes
of safetyChecker.js are modelled by hand-written recursive matchers over
`List Char`, documented next to each definition.
-/

namespace SqlAgent

/-! ## Character-level helpers (JavaScript string semantics) -/

/-- The characters matched by JavaScript's `\s` that occur in ASCII, and
trimmed by `String.prototype.trim`: space, tab, line feed, carriage return,
vertical tab (11) and form feed (12).  (The Unicode space characters also
matched by `\s` are not modelled.) -/
def isJsSpace (c : Char) : Bool :=
  c == ' ' || c == '\t' || c == '\n' || c == '\r' || c.toNat == 11 || c.toNat == 12

/-- JavaScript `String.prototype.trim` on a character list. -/
def trimChars (cs : List Char) : List Char :=
  ((cs.dropWhile isJsSpace).reverse.dropWhile isJsSpace).reverse

/-- ASCII uppercasing of one character, as `String.prototype.toUpperCase`
acts on ASCII. -/
def upChar (c : Char) : Char :=
  if c.isLower then Char.ofNat (c.toNat - 32) else c

/-- A JavaScript regex word character, `\w` = `[A-Za-z0-9_]`. -/
def isWordChar (c : Char) : Bool :=
  c.isAlpha || c.isDigit || c == '_'

/-- Exact substring containment: `hay` contains `needle` as a contiguous
run (JavaScript `String.prototype.includes` / a literal regex without
flags). -/
def containsList (needle : List Char) : List Char → Bool
  | [] => needle.isEmpty
  | c :: cs => needle.isPrefixOf (c :: cs) || containsList needle cs

/-- Case-insensitive substring containment (a literal regex with the `i`
flag): both sides are ASCII-uppercased first. -/
def containsCI (needle hay : List Char) : Bool :=
  containsList (needle.map upChar) (hay.map upChar)

/-! ## The `\b<KEYWORD>\b` matcher (safetyChecker.js line 46)

`new RegExp("\\b" + keyword + "\\b", "i").test(sqlQuery)`, for a keyword
made of letters: some position of the text starts a case-insensitive copy
of the keyword whose neighbouring characters (when they exist) are not
word characters. -/

/-- Case-insensitively strip `kw` (given uppercased) from the front of a
text; `some rest` on success. -/
def ciStrip : List Char → List Char → Option (List Char)
  | [], rest => some rest
  | _ :: _, [] => none
  | k :: ks, c :: cs => if upChar c == k then ciStrip ks cs else none

/-- `kw` matches at the head of `rest` and is followed by a word boundary. -/
def wordHit (kw rest : List Char) : Bool :=
  match ciStrip kw rest with
  | some [] => true
  | some (d :: _) => !isWordChar d
  | none => false

/-- Scan the text; `prevWord` records whether the previous character was a
word character (false at the start of the text), so a hit is only accepted
at a word boundary. -/
def wbGo (kw : List Char) : Bool → List Char → Bool
  | _, [] => false
  | prevWord, c :: cs => (!prevWord && wordHit kw (c :: cs)) || wbGo kw (isWordChar c) cs

/-- `new RegExp("\\b" + kw + "\\b", "i").test cs` for a keyword of
letters. -/
def wbMatch (kw cs : List Char) : Bool := wbGo kw false cs

/-! ## safetyChecker.js -/

/-- safetyChecker.js lines 6-18: the fixed list of destructive keywords. -/
def DESTRUCTIVE_KEYWORDS : List String :=
  ["DROP", "DELETE", "UPDATE", "INSERT", "TRUNCATE", "ALTER", "CREATE",
   "GRANT", "REVOKE", "EXEC", "EXECUTE"]

/-- The alternatives of the stacked-statement regex on line 21 of
safetyChecker.js; note it lists only seven of the eleven destructive
keywords (GRANT, REVOKE, EXEC and EXECUTE are absent). -/
def STACKED_KEYWORDS : List String :=
  ["DROP", "DELETE", "UPDATE", "INSERT", "TRUNCATE", "ALTER", "CREATE"]

/-- After a semicolon: skip the (maximal) run of `\s` characters and test
whether one of the seven stacked keywords follows, case-insensitively.
Since no keyword starts with a whitespace character, this is exactly what
`;\s*(DROP|...)` can match after the semicolon. -/
def stackedKeywordFollows (cs : List Char) : Bool :=
  STACKED_KEYWORDS.any (fun kw => (ciStrip kw.data (cs.dropWhile isJsSpace)).isSome)

/-- `/;\s*(DROP|DELETE|UPDATE|INSERT|TRUNCATE|ALTER|CREATE)/i.test cs`. -/
def stackedTest : List Char → Bool
  | [] => false
  | c :: cs => (c == ';' && stackedKeywordFollows cs) || stackedTest cs

/-- safetyChecker.js lines 20-26: the five dangerous patterns, in order. -/
inductive DangerousPattern where
  | stacked      -- `;\s*(DROP|DELETE|UPDATE|INSERT|TRUNCATE|ALTER|CREATE)`, flag i
  | lineComment  -- `--`
  | blockComment -- `/\*`
  | xpProc       -- `xp_`, flag i
  | spProc       -- `sp_`, flag i
deriving DecidableEq, Repr

def DANGEROUS_PATTERNS : List DangerousPattern :=
  [.stacked, .lineComment, .blockComment, .xpProc, .spProc]

/-- `pattern.test(sqlQuery)` for each dangerous pattern. -/
def DangerousPattern.test : DangerousPattern → List Char → Bool
  | .stacked, cs => stackedTest cs
  | .lineComment, cs => containsList "--".data cs
  | .blockComment, cs => containsList "/*".data cs
  | .xpProc, cs => containsCI "xp_".data cs
  | .spProc, cs => containsCI "sp_".data cs

/-- `pattern.toString()`, as interpolated into the issue message on line 57
of safetyChecker.js. -/
def DangerousPattern.printed : DangerousPattern → String
  | .stacked => "/;\\s*(DROP|DELETE|UPDATE|INSERT|TRUNCATE|ALTER|CREATE)/i"
  | .lineComment => "/--/"
  | .blockComment => "/\\/\\*/"
  | .xpProc => "/xp_/i"
  | .spProc => "/sp_/i"

/-- The result object of `checkQuerySafety` (safetyChecker.js lines 29-33). -/
structure SafetyResult where
  safe : Bool
  issues : List String
  warnings : List String
deriving DecidableEq, Repr

/-- `result.safe = false; result.issues.push(msg)` guarded by a test. -/
def condIssue (b : Bool) (msg : String) (r : SafetyResult) : SafetyResult :=
  if b then { r with safe := false, issues := r.issues ++ [msg] } else r

/-- `result.warnings.push(msg)` guarded by a test. -/
def condWarn (b : Bool) (msg : String) (r : SafetyResult) : SafetyResult :=
  if b then { r with warnings := r.warnings ++ [msg] } else r

/-- Issue message for a destructive keyword (safetyChecker.js line 49). -/
def kwMsg (kw : String) : String := "Destructive keyword detected: " ++ kw

/-- Issue message for a dangerous pattern (safetyChecker.js line 57). -/
def dangMsg (p : DangerousPattern) : String :=
  "Dangerous pattern detected: " ++ p.printed

/-- safetyChecker.js lines 38-42: statement-type check on the normalized
(trimmed, uppercased) text. -/
def stmtStep (norm : List Char) (r : SafetyResult) : SafetyResult :=
  condIssue (!("SELECT".data.isPrefixOf norm)) "Query must be a SELECT statement" r

/-- safetyChecker.js lines 44-51: destructive-keyword loop on the raw text. -/
def kwStep (cs : List Char) (r : SafetyResult) : SafetyResult :=
  DESTRUCTIVE_KEYWORDS.foldl (fun r kw => condIssue (wbMatch kw.data cs) (kwMsg kw) r) r

/-- safetyChecker.js lines 53-59: dangerous-pattern loop on the raw text. -/
def dangStep (cs : List Char) (r : SafetyResult) : SafetyResult :=
  DANGEROUS_PATTERNS.foldl (fun r p => condIssue (p.test cs) (dangMsg p) r) r

/-- safetyChecker.js lines 61-69: semicolon-structure check on the raw text. -/
def semiStep (cs : List Char) (r : SafetyResult) : SafetyResult :=
  let semicolonCount := cs.count ';'
  if semicolonCount > 1 then
    condIssue true "Multiple statements detected (SQL injection risk)" r
  else
    condIssue (semicolonCount == 1 && !((trimChars cs).getLast? == some ';'))
      "Semicolon in middle of query (SQL injection risk)" r

/-- safetyChecker.js lines 71-78: the two advisory warnings, on the
normalized text. -/
def warnSteps (norm : List Char) (r : SafetyResult) : SafetyResult :=
  let r := condWarn (containsList "SELECT *".data norm)
    "Using SELECT * - consider specifying columns" r
  condWarn (!(containsList "LIMIT".data norm) && !(containsList "TOP".data norm))
    "No LIMIT clause - query might return many rows" r

/-- safetyChecker.js lines 28-81: `checkQuerySafety(sqlQuery)`. -/
def checkQuerySafety (sqlQuery : String) : SafetyResult :=
  let cs := sqlQuery.data
  let norm := (trimChars cs).map upChar
  warnSteps norm (semiStep cs (dangStep cs (kwStep cs (stmtStep norm ⟨true, [], []⟩))))

/-! ## queryExecutor.js: the pure query-rewriting half of `executeQuerySafe` -/

/-- queryExecutor.js line 43: `safeQuery.replace(/;$/, "")` — remove one
trailing semicolon, if present. -/
def stripTrailingSemi (cs : List Char) : List Char :=
  match cs.getLast? with
  | some ';' => cs.dropLast
  | _ => cs

/-- queryExecutor.js lines 36-45, the text actually handed to
`executeQuery`: trim the query; if the trimmed, uppercased text does not
contain `LIMIT`, strip a trailing semicolon and append
`` LIMIT ${maxRows}``. -/
def buildSafeQuery (sqlQuery : String) (maxRows : Nat) : String :=
  let normalizedQuery := (trimChars sqlQuery.data).map upChar
  let safeQuery := trimChars sqlQuery.data
  if !(containsList "LIMIT".data normalizedQuery) then
    ⟨stripTrailingSemi safeQuery⟩ ++ " LIMIT " ++ toString maxRows
  else
    ⟨safeQuery⟩

/-- The condition under which safetyChecker.js lines 76-78 consider the
query row-limited (and omit the no-limit warning): the normalized text
contains `LIMIT` or `TOP`.  The spec's term "row-limiting clause" is
defined by these lines. -/
def hasRowLimitingClause (sqlQuery : String) : Bool :=
  let norm := (trimChars sqlQuery.data).map upChar
  containsList "LIMIT".data norm || containsList "TOP".data norm

/-! ## agent.js: the orchestrator

The four external collaborators are modelled as oracles.  `gen n` is the
reply of the `n`-th `generateQuery` call of the run (1-based): within one
run the other arguments of the call are a function of `n`, so indexing the
oracle by the call count loses no generality.  `runQuery` models
`pool.query` as wrapped by `executeQuery` (queryExecutor.js lines 7-31),
which never throws: it returns either the shaped row data or the shaped
error.  `summ` models `summarizeResults`, called at most once per run. -/

/-- The `data` object built by `executionNode` on success
(executionNodes.js lines 28-33; `fields` is dropped: nothing reads it). -/
structure ExecData where
  rows : List String
  rowCount : Nat
  executionTime : String
deriving DecidableEq, Repr

/-- The `error` object built by `executionNode` on failure
(executionNodes.js lines 34-38). -/
structure ExecErr where
  message : String
  code : String
  detail : String
deriving DecidableEq, Repr

/-- The external collaborators of one run.  `Sch` is the (opaque) schema
payload: the agent only threads it into generation prompts. -/
structure Oracles (Sch : Type) where
  /-- `extractSchema()`: ok, or the error it rethrows. -/
  schema : Except String Sch
  /-- `generateQuery` on the n-th call: ok with the cleaned `query` field,
  or the caught error message (llmNodes.js lines 39-48). -/
  gen : Nat → Except String String
  /-- `executeQuery` (pool.query plus result shaping), applied by
  `executeQuerySafe` to the rewritten text. -/
  runQuery : String → Except ExecErr ExecData
  /-- `summarizeResults`: ok with the summary, or the caught error. -/
  summ : Except String String

/-- One record of the `trace` array of agent.js. -/
inductive TraceEntry where
  | schemaExtraction (success : Bool)
  | queryGeneration (attempt : Nat) (success : Bool)
      (query : Option String) (error : Option String)
  | safetyCheck (attempt : Nat) (safe : Bool) (issues warnings : List String)
  | execution (success : Bool) (rowCount : Option Nat) (executionTime : Option String)
  | summarization (success : Bool)
  | errorStep (error : String)
deriving DecidableEq, Repr

/-- Ghost instrumentation: the calls the orchestrator makes on its
collaborators, in order.  Not part of the JavaScript return value; used to
state which ports were invoked and with which arguments. -/
inductive Event where
  | genCall (attempt : Nat) (previousQuery : Option String) (feedback : Option String)
  | safetyCheck (attempt : Nat) (query : String) (verdict : SafetyResult)
  | execCall (query : String) (maxRows : Nat)
  | summCall (query : String)
deriving DecidableEq, Repr

/-- The tagged union of objects `sqlQueryAgent` returns; one constructor
per `return` site of agent.js, fields in source order (the constant
`error` strings are recovered by `AgentResult.errorString`). -/
inductive AgentResult where
  /-- agent.js lines 50-55: generation failed. -/
  | genFailure (details : String) (trace : List TraceEntry)
  /-- agent.js lines 92-100: no safe query within the retry budget. -/
  | exhausted (attempts : Nat) (lastIssues : List String) (trace : List TraceEntry)
  /-- agent.js lines 113-121: execution failed. -/
  | execFailure (details : ExecErr) (query : String) (trace : List TraceEntry)
  /-- agent.js lines 138-147: summarization failed. -/
  | summFailure (details : String) (query : String) (data : ExecData)
      (trace : List TraceEntry)
  /-- agent.js lines 150-164: success; `trace` is `debug ? trace : undefined`. -/
  | success (answer : String) (query : String) (data : ExecData)
      (attempts : Nat) (warnings : List String) (trace : Option (List TraceEntry))
  /-- agent.js lines 166-178: the catch-all handler. -/
  | unexpected (details : String) (trace : List TraceEntry)
deriving DecidableEq, Repr

/-- The literal `error` string of each failure object (`none` on success). -/
def AgentResult.errorString : AgentResult → Option String
  | .genFailure _ _ => some "Failed to generate SQL query"
  | .exhausted _ _ _ => some "Could not generate a safe query after multiple attempts"
  | .execFailure _ _ _ => some "Query execution failed"
  | .summFailure _ _ _ _ => some "Failed to generate summary"
  | .success _ _ _ _ _ _ => none
  | .unexpected _ _ => some "Unexpected error in agent execution"

/-- The `trace` field of the returned object: always present on failures,
`debug ? trace : undefined` on success. -/
def AgentResult.traceOut : AgentResult → Option (List TraceEntry)
  | .genFailure _ tr => some tr
  | .exhausted _ _ tr => some tr
  | .execFailure _ _ tr => some tr
  | .summFailure _ _ _ tr => some tr
  | .success _ _ _ _ _ tr => tr
  | .unexpected _ tr => some tr

/-- The attempt count the result carries (`attempts` on exhaustion,
`metadata.attempts` on success). -/
def AgentResult.attemptsOut : AgentResult → Option Nat
  | .exhausted n _ _ => some n
  | .success _ _ _ n _ _ => some n
  | _ => none

/-- The `lastIssues` field (only the exhaustion result has one). -/
def AgentResult.lastIssuesOut : AgentResult → Option (List String)
  | .exhausted _ li _ => some li
  | _ => none

/-- The `ExecutionOutcome` data the result carries, when any. -/
def AgentResult.dataOut : AgentResult → Option ExecData
  | .summFailure _ _ d _ => some d
  | .success _ _ d _ _ _ => some d
  | _ => none

/-- The mutable state of the `while` loop of agent.js lines 16-29:
`attempt`, `previousQuery`, `safetyFeedback`, `trace`, `safeQuery`,
`safetyResult`, plus the ghost event log. -/
structure LoopState where
  attempt : Nat
  previousQuery : Option String
  safetyFeedback : Option String
  trace : List TraceEntry
  events : List Event
  safeQuery : Option String
  safetyResult : Option SafetyResult
deriving Repr

/-- How one run of the loop ends: an early `return` from inside the loop
body (generation failure), or falling through to the code after the loop
(condition false, or `break` on a safe query). -/
inductive LoopOut where
  | earlyReturn (r : AgentResult) (events : List Event)
  | fell (st : LoopState)

/-- agent.js lines 31-89: `while (attempt < maxRetries) { ... }`.
`fuel` is the number of iterations the guard still allows,
`(maxRetries - attempt).toNat`; the loop body only increments `attempt`,
so counting down is equivalent to re-testing the guard. -/
def agentLoop (gen : Nat → Except String String) : Nat → LoopState → LoopOut
  | 0, st => .fell st
  | fuel + 1, st =>
    let attempt := st.attempt + 1
    let events := st.events ++ [Event.genCall attempt st.previousQuery st.safetyFeedback]
    match gen attempt with
    | .error e =>
        .earlyReturn
          (.genFailure e (st.trace ++ [TraceEntry.queryGeneration attempt false none (some e)]))
          events
    | .ok generatedQuery =>
        let trace := st.trace ++
          [TraceEntry.queryGeneration attempt true (some generatedQuery) none]
        let sr := checkQuerySafety generatedQuery
        let trace := trace ++
          [TraceEntry.safetyCheck attempt sr.safe sr.issues sr.warnings]
        let events := events ++ [Event.safetyCheck attempt generatedQuery sr]
        if sr.safe then
          .fell { attempt, previousQuery := st.previousQuery,
                  safetyFeedback := st.safetyFeedback, trace, events,
                  safeQuery := some generatedQuery, safetyResult := some sr }
        else
          agentLoop gen fuel
            { attempt, previousQuery := some generatedQuery,
              safetyFeedback := some (String.intercalate "; " sr.issues),
              trace, events, safeQuery := st.safeQuery, safetyResult := some sr }

/-- The options object of agent.js lines 10-14.  `maxRetries` is a
JavaScript number compared with `<`, so it is modelled as an integer. -/
structure AgentOptions where
  maxRetries : Int := 3
  maxRows : Nat := 100
  debug : Bool := false

/-- The message of the TypeError V8 raises when agent.js line 97 reads
`.issues` of the null `safetyResult` (only reachable when the loop never
ran). -/
def nullIssuesMsg : String := "Cannot read properties of null (reading 'issues')"

/-- agent.js lines 9-179: `sqlQueryAgent(question, options)`, returning the
result together with the ghost log of collaborator calls.  The only
statements inside the `try` that can throw are the `extractSchema()` call
(schemaExtractor.js rethrows its error) and the read of
`safetyResult.issues` when `safetyResult` is still null; both land in the
catch block of lines 166-178. -/
def sqlQueryAgent (Sch : Type) (O : Oracles Sch) (question : String)
    (options : AgentOptions) : AgentResult × List Event :=
  match O.schema with
  | .error e => (.unexpected e [TraceEntry.errorStep e], [])
  | .ok _schema =>
    let trace := [TraceEntry.schemaExtraction true]
    match agentLoop O.gen (options.maxRetries - 0).toNat
        { attempt := 0, previousQuery := none, safetyFeedback := none,
          trace, events := [], safeQuery := none, safetyResult := none } with
    | .earlyReturn r evs => (r, evs)
    | .fell st =>
      match st.safeQuery with
      | none =>
        match st.safetyResult with
        | some sr => (.exhausted st.attempt sr.issues st.trace, st.events)
        | none =>
          (.unexpected nullIssuesMsg
            (st.trace ++ [TraceEntry.errorStep nullIssuesMsg]), st.events)
      | some safeQuery =>
        let events := st.events ++ [Event.execCall safeQuery options.maxRows]
        match O.runQuery (buildSafeQuery safeQuery options.maxRows) with
        | .error err =>
          (.execFailure err safeQuery
            (st.trace ++ [TraceEntry.execution false none none]), events)
        | .ok d =>
          let trace := st.trace ++
            [TraceEntry.execution true (some d.rowCount) (some d.executionTime)]
          let events := events ++ [Event.summCall safeQuery]
          match O.summ with
          | .error e =>
            (.summFailure e safeQuery d (trace ++ [TraceEntry.summarization false]),
             events)
          | .ok answer =>
            (.success answer safeQuery d st.attempt
              ((st.safetyResult.map SafetyResult.warnings).getD [])
              (if options.debug then some (trace ++ [TraceEntry.summarization true])
               else none),
             events)

/-! ## Decomposition of `checkQuerySafety`

The checker is a chain of guarded pushes; these lemmas express the final
`safe`, `issues` and `warnings` fields in terms of the per-step tests. -/

theorem condIssue_safe (b : Bool) (m : String) (r : SafetyResult) :
    (condIssue b m r).safe = (r.safe && !b) := by
  cases b <;> simp [condIssue]

theorem condIssue_issues (b : Bool) (m : String) (r : SafetyResult) :
    (condIssue b m r).issues = r.issues ++ (if b then [m] else []) := by
  cases b <;> simp [condIssue]

theorem condIssue_warnings (b : Bool) (m : String) (r : SafetyResult) :
    (condIssue b m r).warnings = r.warnings := by
  cases b <;> simp [condIssue]

theorem condWarn_safe (b : Bool) (m : String) (r : SafetyResult) :
    (condWarn b m r).safe = r.safe := by
  cases b <;> simp [condWarn]

theorem condWarn_issues (b : Bool) (m : String) (r : SafetyResult) :
    (condWarn b m r).issues = r.issues := by
  cases b <;> simp [condWarn]

/-- The issues a guarded-push loop contributes: one message per element
whose test holds, in list order. -/
def collectIssues {α : Type} (t : α → Bool) (m : α → String) : List α → List String
  | [] => []
  | x :: xs => (if t x then [m x] else []) ++ collectIssues t m xs

theorem foldl_condIssue_issues {α : Type} (t : α → Bool) (m : α → String) :
    ∀ (L : List α) (r : SafetyResult),
      (L.foldl (fun r x => condIssue (t x) (m x) r) r).issues =
        r.issues ++ collectIssues t m L := by
  intro L
  induction L with
  | nil => intro r; simp [collectIssues]
  | cons x xs ih =>
      intro r
      simp only [List.foldl_cons, collectIssues, ih, condIssue_issues,
        List.append_assoc]

theorem foldl_condIssue_safe {α : Type} (t : α → Bool) (m : α → String) :
    ∀ (L : List α) (r : SafetyResult),
      (L.foldl (fun r x => condIssue (t x) (m x) r) r).safe =
        (r.safe && !(L.any t)) := by
  intro L
  induction L with
  | nil => intro r; simp
  | cons x xs ih =>
      intro r
      simp only [List.foldl_cons, ih, condIssue_safe, List.any_cons]
      cases r.safe <;> cases t x <;> simp

theorem foldl_condIssue_warnings {α : Type} (t : α → Bool) (m : α → String) :
    ∀ (L : List α) (r : SafetyResult),
      (L.foldl (fun r x => condIssue (t x) (m x) r) r).warnings = r.warnings := by
  intro L
  induction L with
  | nil => intro r; rfl
  | cons x xs ih => intro r; simp only [List.foldl_cons, ih, condIssue_warnings]

theorem collectIssues_eq_nil_iff {α : Type} (t : α → Bool) (m : α → String)
    (L : List α) : collectIssues t m L = [] ↔ L.any t = false := by
  induction L with
  | nil => simp [collectIssues]
  | cons x xs ih =>
      cases h : t x <;> simp [collectIssues, h, ih]

theorem mem_collectIssues_of {α : Type} (t : α → Bool) (m : α → String)
    (L : List α) (x : α) (hx : x ∈ L) (ht : t x = true) :
    m x ∈ collectIssues t m L := by
  induction L with
  | nil => cases hx
  | cons y ys ih =>
      rcases List.mem_cons.mp hx with rfl | hmem
      · simp [collectIssues, ht]
      · cases h : t y <;> simp [collectIssues, h, ih hmem]

theorem count_collectIssues {α : Type} (t : α → Bool) (m : α → String)
    (L : List α) (y : String) :
    (collectIssues t m L).count y = L.countP (fun x => t x && (m x == y)) := by
  induction L with
  | nil => simp [collectIssues]
  | cons x xs ih =>
      cases ht : t x
      · simp [collectIssues, ht, List.countP_cons, ih]
      · cases hm : m x == y
        · simp [collectIssues, ht, hm, List.countP_cons, ih, List.count_cons]
        · simp [collectIssues, ht, hm, List.countP_cons, ih, List.count_cons]

/-- The issue the statement-type check contributes. -/
def stmtIssues (norm : List Char) : List String :=
  if !("SELECT".data.isPrefixOf norm) then ["Query must be a SELECT statement"] else []

/-- The issues the destructive-keyword loop contributes. -/
def kwIssues (cs : List Char) : List String :=
  collectIssues (fun kw => wbMatch kw.data cs) kwMsg DESTRUCTIVE_KEYWORDS

/-- The issues the dangerous-pattern loop contributes. -/
def dangIssues (cs : List Char) : List String :=
  collectIssues (fun p => p.test cs) dangMsg DANGEROUS_PATTERNS

/-- Whether the semicolon-structure check fires at all. -/
def semiFlag (cs : List Char) : Bool :=
  if cs.count ';' > 1 then true
  else cs.count ';' == 1 && !((trimChars cs).getLast? == some ';')

/-- The issue the semicolon-structure check contributes. -/
def semiIssues (cs : List Char) : List String :=
  if cs.count ';' > 1 then ["Multiple statements detected (SQL injection risk)"]
  else if cs.count ';' == 1 && !((trimChars cs).getLast? == some ';') then
    ["Semicolon in middle of query (SQL injection risk)"]
  else []

theorem semiStep_issues (cs : List Char) (r : SafetyResult) :
    (semiStep cs r).issues = r.issues ++ semiIssues cs := by
  simp only [semiStep, semiIssues]
  by_cases h1 : cs.count ';' > 1
  · simp [h1, condIssue_issues]
  · by_cases h2 : (cs.count ';' == 1 && !((trimChars cs).getLast? == some ';')) = true
    · simp [h1, h2, condIssue_issues]
    · simp [h1, h2, condIssue_issues]

theorem semiStep_safe (cs : List Char) (r : SafetyResult) :
    (semiStep cs r).safe = (r.safe && !(semiFlag cs)) := by
  simp only [semiStep, semiFlag]
  by_cases h1 : cs.count ';' > 1
  · simp [h1, condIssue_safe]
  · simp [h1, condIssue_safe]

theorem semiStep_warnings (cs : List Char) (r : SafetyResult) :
    (semiStep cs r).warnings = r.warnings := by
  simp only [semiStep]
  by_cases h1 : cs.count ';' > 1 <;> simp [h1, condIssue_warnings]

theorem condWarn_warnings (b : Bool) (m : String) (r : SafetyResult) :
    (condWarn b m r).warnings = r.warnings ++ (if b then [m] else []) := by
  cases b <;> simp [condWarn]

/-- The full issue list of `checkQuerySafety`, step by step. -/
theorem checkQuerySafety_issues (s : String) :
    (checkQuerySafety s).issues =
      stmtIssues ((trimChars s.data).map upChar) ++ kwIssues s.data ++
        dangIssues s.data ++ semiIssues s.data := by
  unfold checkQuerySafety warnSteps kwStep dangStep stmtStep
  simp only [condWarn_issues, semiStep_issues, foldl_condIssue_issues,
    condIssue_issues, kwIssues, dangIssues, stmtIssues]
  simp [List.append_assoc]

/-- The final `safe` flag, as the conjunction of the four checks. -/
theorem checkQuerySafety_safe (s : String) :
    (checkQuerySafety s).safe =
      ("SELECT".data.isPrefixOf ((trimChars s.data).map upChar) &&
        !(DESTRUCTIVE_KEYWORDS.any fun kw => wbMatch kw.data s.data) &&
        !(DANGEROUS_PATTERNS.any fun p => p.test s.data) &&
        !(semiFlag s.data)) := by
  unfold checkQuerySafety warnSteps kwStep dangStep stmtStep
  simp only [condWarn_safe, semiStep_safe, foldl_condIssue_safe, condIssue_safe]
  cases h : "SELECT".data.isPrefixOf ((trimChars s.data).map upChar) <;> simp [h]

/-- The final warning list: the two advisories, in order, when their
conditions hold. -/
theorem checkQuerySafety_warnings (s : String) :
    (checkQuerySafety s).warnings =
      (if containsList "SELECT *".data ((trimChars s.data).map upChar) then
        ["Using SELECT * - consider specifying columns"] else []) ++
      (if !(containsList "LIMIT".data ((trimChars s.data).map upChar)) &&
          !(containsList "TOP".data ((trimChars s.data).map upChar)) then
        ["No LIMIT clause - query might return many rows"] else []) := by
  unfold checkQuerySafety warnSteps kwStep dangStep stmtStep
  simp only [condWarn_warnings, semiStep_warnings, foldl_condIssue_warnings,
    condIssue_warnings, List.nil_append]

theorem stmtIssues_eq_nil_iff (norm : List Char) :
    stmtIssues norm = [] ↔ "SELECT".data.isPrefixOf norm = true := by
  cases h : "SELECT".data.isPrefixOf norm <;> simp [stmtIssues, h]

theorem semiIssues_eq_nil_iff (cs : List Char) :
    semiIssues cs = [] ↔ semiFlag cs = false := by
  simp only [semiIssues, semiFlag]
  by_cases h1 : cs.count ';' > 1
  · simp [h1]
  · by_cases h2 : (cs.count ';' == 1 && !((trimChars cs).getLast? == some ';')) = true
    · simp [h1, h2]
    · simp [h1, h2]

/-- Everything `y ∈ collectIssues t m L` can be. -/
theorem eq_of_mem_collectIssues {α : Type} {t : α → Bool} {m : α → String}
    {L : List α} {y : String} (h : y ∈ collectIssues t m L) :
    ∃ x, x ∈ L ∧ t x = true ∧ y = m x := by
  induction L with
  | nil => cases h
  | cons x xs ih =>
      by_cases hx : t x = true
      · simp only [collectIssues, hx, if_pos, List.mem_append, List.mem_singleton] at h
        rcases h with rfl | h
        · exact ⟨x, List.mem_cons_self x xs, hx, rfl⟩
        · obtain ⟨z, hz, htz, rfl⟩ := ih h
          exact ⟨z, List.mem_cons_of_mem x hz, htz, rfl⟩
      · simp only [collectIssues, hx, if_neg, Bool.not_eq_true, if_false,
          List.nil_append] at h
        obtain ⟨z, hz, htz, rfl⟩ := ih h
        exact ⟨z, List.mem_cons_of_mem x hz, htz, rfl⟩

theorem eq_of_mem_stmtIssues {norm : List Char} {y : String}
    (h : y ∈ stmtIssues norm) : y = "Query must be a SELECT statement" := by
  by_cases hp : "SELECT".data.isPrefixOf norm = true <;>
    simp [stmtIssues, hp] at h <;> simp [h]

theorem eq_of_mem_semiIssues {cs : List Char} {y : String}
    (h : y ∈ semiIssues cs) :
    y = "Multiple statements detected (SQL injection risk)" ∨
      y = "Semicolon in middle of query (SQL injection risk)" := by
  simp only [semiIssues] at h
  by_cases h1 : cs.count ';' > 1
  · simp [h1] at h; exact Or.inl h
  · by_cases h2 : (cs.count ';' == 1 && !((trimChars cs).getLast? == some ';')) = true
    · simp [h1, h2] at h; exact Or.inr h
    · simp [h1, h2] at h

/-! ## Consequences of a matching keyword or pattern -/

theorem safe_false_of_kw (s : String) (kw : String)
    (hk : kw ∈ DESTRUCTIVE_KEYWORDS) (ht : wbMatch kw.data s.data = true) :
    (checkQuerySafety s).safe = false := by
  rw [checkQuerySafety_safe]
  have hany : (DESTRUCTIVE_KEYWORDS.any fun kw => wbMatch kw.data s.data) = true :=
    List.any_eq_true.mpr ⟨kw, hk, ht⟩
  simp [hany]

theorem mem_issues_of_kw (s : String) (kw : String)
    (hk : kw ∈ DESTRUCTIVE_KEYWORDS) (ht : wbMatch kw.data s.data = true) :
    kwMsg kw ∈ (checkQuerySafety s).issues := by
  rw [checkQuerySafety_issues]
  have hm : kwMsg kw ∈ kwIssues s.data :=
    mem_collectIssues_of _ _ DESTRUCTIVE_KEYWORDS kw hk ht
  simp [List.mem_append, hm]

theorem safe_false_of_dang (s : String) (p : DangerousPattern)
    (hp : p ∈ DANGEROUS_PATTERNS) (ht : p.test s.data = true) :
    (checkQuerySafety s).safe = false := by
  rw [checkQuerySafety_safe]
  have hany : (DANGEROUS_PATTERNS.any fun p => p.test s.data) = true :=
    List.any_eq_true.mpr ⟨p, hp, ht⟩
  simp [hany]

theorem mem_issues_of_dang (s : String) (p : DangerousPattern)
    (hp : p ∈ DANGEROUS_PATTERNS) (ht : p.test s.data = true) :
    dangMsg p ∈ (checkQuerySafety s).issues := by
  rw [checkQuerySafety_issues]
  have hm : dangMsg p ∈ dangIssues s.data :=
    mem_collectIssues_of _ _ DANGEROUS_PATTERNS p hp ht
  simp [List.mem_append, hm]

/-! ## The issue messages of the four checks are pairwise distinct -/

theorem dangMsg_inj {p q : DangerousPattern} (h : dangMsg p = dangMsg q) :
    p = q := by
  cases p <;> cases q <;> first | rfl | (exfalso; revert h; decide)

theorem dangMsg_ne_stmt (p : DangerousPattern) :
    dangMsg p ≠ "Query must be a SELECT statement" := by
  cases p <;> decide

theorem dangMsg_ne_kw (p : DangerousPattern) (kw : String)
    (hk : kw ∈ DESTRUCTIVE_KEYWORDS) : dangMsg p ≠ kwMsg kw := by
  fin_cases hk <;> cases p <;> decide

theorem dangMsg_ne_semi (p : DangerousPattern) :
    dangMsg p ≠ "Multiple statements detected (SQL injection risk)" ∧
      dangMsg p ≠ "Semicolon in middle of query (SQL injection risk)" := by
  cases p <;> decide

/-- A dangerous-pattern message is in the final issue list exactly when
that pattern matched: it is contributed by the pattern loop alone, and by
the one pattern whose printed form it carries. -/
theorem dangMsg_mem_issues_iff (s : String) (p : DangerousPattern)
    (hp : p ∈ DANGEROUS_PATTERNS) :
    dangMsg p ∈ (checkQuerySafety s).issues ↔ p.test s.data = true := by
  constructor
  · intro h
    rw [checkQuerySafety_issues] at h
    simp only [List.mem_append] at h
    rcases h with ((hstmt | hkw) | hdang) | hsemi
    · exact absurd (eq_of_mem_stmtIssues hstmt) (dangMsg_ne_stmt p)
    · obtain ⟨kw, hkmem, _, heq⟩ := eq_of_mem_collectIssues hkw
      exact absurd heq (dangMsg_ne_kw p kw hkmem)
    · obtain ⟨q, _, htq, heq⟩ := eq_of_mem_collectIssues hdang
      rw [dangMsg_inj heq]; exact htq
    · rcases eq_of_mem_semiIssues hsemi with h | h
      · exact absurd h (dangMsg_ne_semi p).1
      · exact absurd h (dangMsg_ne_semi p).2
  · exact mem_issues_of_dang s p hp

/-! ## Soundness of the `\b<KW>\b` matcher

`wholeWordOccurs` renders the spec's phrase "whole-word, case-insensitive
occurrence anywhere in the text": the text splits as `pre ++ mid ++ post`,
`mid` uppercases to the (uppercase) keyword, and the characters adjacent to
`mid` (when they exist) are not word characters. -/

def wholeWordOccurs (kw cs : List Char) : Prop :=
  ∃ pre mid post, cs = pre ++ mid ++ post ∧ mid.map upChar = kw ∧
    (∀ c, pre.getLast? = some c → isWordChar c = false) ∧
    (∀ c, post.head? = some c → isWordChar c = false)

theorem ciStrip_append (kw mid post : List Char) (h : mid.map upChar = kw) :
    ciStrip kw (mid ++ post) = some post := by
  induction mid generalizing kw with
  | nil => rw [← h]; rfl
  | cons c cs ih =>
      rw [← h]
      simp only [List.map_cons, List.cons_append, ciStrip, beq_self_eq_true, if_true]
      exact ih _ rfl

theorem wordHit_of (kw mid post : List Char) (h : mid.map upChar = kw)
    (hpost : ∀ c, post.head? = some c → isWordChar c = false) :
    wordHit kw (mid ++ post) = true := by
  unfold wordHit
  rw [ciStrip_append kw mid post h]
  cases post with
  | nil => rfl
  | cons d ds => simp [hpost d rfl]

theorem wbGo_sound (kw : List Char) :
    ∀ (pre : List Char) (pw : Bool) (mid post : List Char), mid ≠ [] →
      mid.map upChar = kw → (pre = [] → pw = false) →
      (∀ c, pre.getLast? = some c → isWordChar c = false) →
      (∀ c, post.head? = some c → isWordChar c = false) →
      wbGo kw pw (pre ++ mid ++ post) = true := by
  intro pre
  induction pre with
  | nil =>
      intro pw mid post hmid h hpw _ hpost
      cases mid with
      | nil => exact absurd rfl hmid
      | cons c cs =>
          rw [hpw rfl]
          have hw : wordHit kw ((c :: cs) ++ post) = true :=
            wordHit_of kw (c :: cs) post h hpost
          show (!false && wordHit kw ((c :: cs) ++ post) ||
            wbGo kw (isWordChar c) (cs ++ post)) = true
          rw [hw]
          simp
  | cons a pres ih =>
      intro pw mid post hmid h _ hpre hpost
      show wbGo kw pw (a :: (pres ++ mid ++ post)) = true
      simp only [wbGo, Bool.or_eq_true]
      right
      refine ih (isWordChar a) mid post hmid h ?_ ?_ hpost
      · intro hnil
        subst hnil
        exact hpre a rfl
      · intro c hc
        apply hpre
        cases pres with
        | nil => cases hc
        | cons b l => rw [List.getLast?_cons_cons]; exact hc

theorem wbMatch_of_wholeWordOccurs {kw cs : List Char} (hk : kw ≠ [])
    (h : wholeWordOccurs kw cs) : wbMatch kw cs = true := by
  obtain ⟨pre, mid, post, rfl, hmid, hpre, hpost⟩ := h
  have hmidne : mid ≠ [] := by
    intro hn; subst hn; exact hk (by simpa using hmid.symm)
  exact wbGo_sound kw pre false mid post hmidne hmid (fun _ => rfl) hpre hpost

/-! ## Plain and case-insensitive substring occurrence -/

theorem isPrefixOf_append_self (l t : List Char) : l.isPrefixOf (l ++ t) = true := by
  induction l with
  | nil => cases t <;> rfl
  | cons a as ih => simp [List.isPrefixOf, ih]

theorem containsList_nil_left (hay : List Char) : containsList [] hay = true := by
  cases hay <;> simp [containsList, List.isPrefixOf]

theorem containsList_append_self (pre needle post : List Char) :
    containsList needle (pre ++ needle ++ post) = true := by
  induction pre with
  | nil =>
      cases needle with
      | nil => simpa using containsList_nil_left post
      | cons n ns =>
          show containsList (n :: ns) ((n :: ns) ++ post) = true
          simp only [List.cons_append, containsList, Bool.or_eq_true]
          left
          exact isPrefixOf_append_self (n :: ns) post
  | cons p ps ih =>
      show containsList needle (p :: (ps ++ needle ++ post)) = true
      simp only [containsList, Bool.or_eq_true]
      right
      exact ih

/-- The spec-side notion for C9: the text contains `needle` as a bare,
case-insensitive substring, at any position. -/
def substrCI (needle : String) (s : String) : Prop :=
  ∃ pre mid post, s.data = pre ++ mid ++ post ∧
    mid.map upChar = needle.data.map upChar

theorem containsCI_of_substrCI {needle s : String} (h : substrCI needle s) :
    containsCI needle.data s.data = true := by
  obtain ⟨pre, mid, post, hs, hmid⟩ := h
  unfold containsCI
  rw [hs]
  simp only [List.map_append]
  rw [← hmid]
  exact containsList_append_self _ _ _

/-! ## Loop invariants of the orchestrator -/

/-- The event log a loop outcome carries. -/
def LoopOut.events : LoopOut → List Event
  | .earlyReturn _ evs => evs
  | .fell st => st.events

/-- The events the loop itself can emit. -/
def isLoopEvent : Event → Bool
  | .genCall _ _ _ => true
  | .safetyCheck _ _ _ => true
  | _ => false

def isExecCall : Event → Bool
  | .execCall _ _ => true
  | _ => false

/-- The loop only appends generation-call and safety-check events, and an
early return out of it is always the generation-failure result. -/
theorem agentLoop_events_shape (gen : Nat → Except String String) :
    ∀ (fuel : Nat) (st : LoopState),
      (∃ new, (agentLoop gen fuel st).events = st.events ++ new ∧
        ∀ e ∈ new, isLoopEvent e = true) ∧
      (∀ r evs, agentLoop gen fuel st = .earlyReturn r evs →
        ∃ d tr, r = .genFailure d tr) := by
  intro fuel
  induction fuel with
  | zero =>
      intro st
      refine ⟨⟨[], by simp [agentLoop, LoopOut.events], ?_⟩, ?_⟩
      · intro e he; cases he
      · intro r evs h; cases h
  | succ fuel ih =>
      intro st
      simp only [agentLoop]
      cases hg : gen (st.attempt + 1) with
      | error e =>
          refine ⟨⟨[Event.genCall (st.attempt + 1) st.previousQuery st.safetyFeedback],
            by simp [LoopOut.events], ?_⟩, ?_⟩
          · intro e he
            simp only [List.mem_singleton] at he
            subst he; rfl
          · intro r evs h
            exact ⟨_, _, (LoopOut.earlyReturn.injEq _ _ _ _).mp h |>.1.symm⟩
      | ok generatedQuery =>
          cases hs : (checkQuerySafety generatedQuery).safe with
          | true =>
              simp only [hs, if_true]
              refine ⟨⟨[Event.genCall (st.attempt + 1) st.previousQuery st.safetyFeedback,
                Event.safetyCheck (st.attempt + 1) generatedQuery
                  (checkQuerySafety generatedQuery)],
                by simp [LoopOut.events, List.append_assoc], ?_⟩, ?_⟩
              · intro e he
                rcases List.mem_cons.mp he with rfl | he
                · rfl
                · simp only [List.mem_singleton] at he; subst he; rfl
              · intro r evs h; cases h
          | false =>
              simp only [hs, Bool.false_eq_true, if_false]
              refine ⟨?_, fun r evs h => ((ih _).2) r evs h⟩
              obtain ⟨new, hnew, hall⟩ := (ih _).1
              refine ⟨[Event.genCall (st.attempt + 1) st.previousQuery st.safetyFeedback,
                Event.safetyCheck (st.attempt + 1) generatedQuery
                  (checkQuerySafety generatedQuery)] ++ new, ?_, ?_⟩
              · rw [hnew]; simp [List.append_assoc]
              · intro e he
                rcases List.mem_append.mp he with he | he
                · rcases List.mem_cons.mp he with rfl | he
                  · rfl
                  · simp only [List.mem_singleton] at he; subst he; rfl
                · exact hall e he

/-- A query is certified in an event log: its verdict (recomputed) is safe,
and the log records the safety check that computed it. -/
def SafeCert (q : String) (evs : List Event) : Prop :=
  (checkQuerySafety q).safe = true ∧
    ∃ a, Event.safetyCheck a q (checkQuerySafety q) ∈ evs

theorem safeCert_append {q : String} {evs more : List Event}
    (h : SafeCert q evs) : SafeCert q (evs ++ more) := by
  obtain ⟨hsafe, a, hmem⟩ := h
  exact ⟨hsafe, a, List.mem_append_left more hmem⟩

/-- If the loop falls through with `safeQuery` set, that query is
certified in the loop's event log. -/
theorem agentLoop_fell_safeCert (gen : Nat → Except String String) :
    ∀ (fuel : Nat) (st st' : LoopState), agentLoop gen fuel st = .fell st' →
      (∀ q, st.safeQuery = some q → SafeCert q st.events) →
      (∀ q, st'.safeQuery = some q → SafeCert q st'.events) := by
  intro fuel
  induction fuel with
  | zero =>
      intro st st' h hst
      cases h
      exact hst
  | succ fuel ih =>
      intro st st' h hst
      simp only [agentLoop] at h
      cases hg : gen (st.attempt + 1) with
      | error e => rw [hg] at h; cases h
      | ok generatedQuery =>
          rw [hg] at h
          cases hs : (checkQuerySafety generatedQuery).safe with
          | true =>
              simp only [hs, if_true] at h
              cases h
              intro q hq
              simp only at hq
              cases hq
              refine ⟨hs, st.attempt + 1, ?_⟩
              simp
          | false =>
              simp only [hs, Bool.false_eq_true, if_false] at h
              refine ih _ st' h ?_
              intro q hq
              simp only at hq
              exact safeCert_append (safeCert_append (hst q hq))

/-- The retry-feedback invariant of an event log: every generation call
numbered 2 or higher carries, as `previousQuery` and `feedback`, exactly
the query and the joined issue list of the immediately preceding failed
safety check, which the log also contains. -/
def FbInv (evs : List Event) : Prop :=
  ∀ a pq fb, Event.genCall (a + 2) pq fb ∈ evs →
    ∃ q, Event.safetyCheck (a + 1) q (checkQuerySafety q) ∈ evs ∧
      (checkQuerySafety q).safe = false ∧ pq = some q ∧
      fb = some (String.intercalate "; " (checkQuerySafety q).issues)

/-- The loop-state side of the invariant: when at least one attempt has
happened and the loop is still running, `previousQuery`/`safetyFeedback`
reflect the latest failed check. -/
def PrevOK (st : LoopState) : Prop :=
  ∀ n, st.attempt = n + 1 →
    ∃ q, Event.safetyCheck (n + 1) q (checkQuerySafety q) ∈ st.events ∧
      (checkQuerySafety q).safe = false ∧ st.previousQuery = some q ∧
      st.safetyFeedback = some (String.intercalate "; " (checkQuerySafety q).issues)

theorem fbInv_append_nongen {evs : List Event} {e : Event} (h : FbInv evs)
    (he : ∀ a pq fb, e ≠ Event.genCall a pq fb) : FbInv (evs ++ [e]) := by
  intro a pq fb hmem
  rcases List.mem_append.mp hmem with hmem | hmem
  · obtain ⟨q, hq, hsafe, hpq, hfb⟩ := h a pq fb hmem
    exact ⟨q, List.mem_append_left _ hq, hsafe, hpq, hfb⟩
  · simp only [List.mem_singleton] at hmem
    exact absurd hmem.symm (he _ _ _)

theorem fbInv_append_gen {st : LoopState} (h : FbInv st.events)
    (hprev : PrevOK st) :
    FbInv (st.events ++
      [Event.genCall (st.attempt + 1) st.previousQuery st.safetyFeedback]) := by
  intro a pq fb hmem
  rcases List.mem_append.mp hmem with hmem | hmem
  · obtain ⟨q, hq, hsafe, hpq, hfb⟩ := h a pq fb hmem
    exact ⟨q, List.mem_append_left _ hq, hsafe, hpq, hfb⟩
  · simp only [List.mem_singleton, Event.genCall.injEq] at hmem
    obtain ⟨hat, hpq, hfb⟩ := hmem
    obtain ⟨q, hq, hsafe, hpq', hfb'⟩ := hprev a (by omega)
    refine ⟨q, List.mem_append_left _ hq, hsafe, ?_, ?_⟩
    · rw [hpq]; exact hpq'
    · rw [hfb]; exact hfb'

/-- The loop preserves the retry-feedback invariant. -/
theorem agentLoop_fbInv (gen : Nat → Except String String) :
    ∀ (fuel : Nat) (st : LoopState), FbInv st.events → PrevOK st →
      FbInv (agentLoop gen fuel st).events := by
  intro fuel
  induction fuel with
  | zero => intro st h _; exact h
  | succ fuel ih =>
      intro st h hprev
      simp only [agentLoop]
      cases hg : gen (st.attempt + 1) with
      | error e => exact fbInv_append_gen h hprev
      | ok generatedQuery =>
          have h1 := fbInv_append_gen h hprev
          cases hs : (checkQuerySafety generatedQuery).safe with
          | true =>
              simp only [hs, if_true, LoopOut.events]
              exact fbInv_append_nongen h1 (fun _ _ _ => by simp)
          | false =>
              simp only [hs, Bool.false_eq_true, if_false]
              apply ih
              · exact fbInv_append_nongen h1 (fun _ _ _ => by simp)
              · intro n hn
                simp only at hn ⊢
                have hn' : n = st.attempt := by omega
                subst hn'
                refine ⟨generatedQuery, ?_, hs, rfl, rfl⟩
                simp

/-- A run of the loop in which every generation call succeeds but every
generated query fails the safety check: the loop uses up all its fuel and
falls through with no safe query and the last verdict recorded. -/
theorem agentLoop_all_rejected (gen : Nat → Except String String)
    (qf : Nat → String) :
    ∀ (fuel : Nat) (st : LoopState),
      (∀ i, i < fuel → gen (st.attempt + 1 + i) = .ok (qf (st.attempt + 1 + i)) ∧
        (checkQuerySafety (qf (st.attempt + 1 + i))).safe = false) →
      ∃ st', agentLoop gen fuel st = .fell st' ∧
        st'.attempt = st.attempt + fuel ∧
        st'.safeQuery = st.safeQuery ∧
        st'.safetyResult = (if fuel = 0 then st.safetyResult else
          some (checkQuerySafety (qf (st.attempt + fuel)))) := by
  intro fuel
  induction fuel with
  | zero =>
      intro st _
      exact ⟨st, rfl, by omega, rfl, by simp⟩
  | succ fuel ih =>
      intro st h
      obtain ⟨hg, hs⟩ := h 0 (by omega)
      simp only [Nat.add_zero] at hg hs
      simp only [agentLoop, hg, hs, Bool.false_eq_true, if_false]
      have hshift : ∀ st₂ : LoopState, st₂.attempt = st.attempt + 1 →
          ∀ i, i < fuel → gen (st₂.attempt + 1 + i) = .ok (qf (st₂.attempt + 1 + i)) ∧
            (checkQuerySafety (qf (st₂.attempt + 1 + i))).safe = false := by
        intro st₂ hat i hi
        rw [hat]
        have e : st.attempt + 1 + 1 + i = st.attempt + 1 + (i + 1) := by omega
        rw [e]
        exact h (i + 1) (by omega)
      obtain ⟨st', hrun, hat, hsq, hsr⟩ := ih
        { attempt := st.attempt + 1,
          previousQuery := some (qf (st.attempt + 1)),
          safetyFeedback := some (String.intercalate "; "
            (checkQuerySafety (qf (st.attempt + 1))).issues),
          trace := st.trace ++
            [TraceEntry.queryGeneration (st.attempt + 1) true
              (some (qf (st.attempt + 1))) none] ++
            [TraceEntry.safetyCheck (st.attempt + 1) false
              (checkQuerySafety (qf (st.attempt + 1))).issues
              (checkQuerySafety (qf (st.attempt + 1))).warnings],
          events := st.events ++
            [Event.genCall (st.attempt + 1) st.previousQuery st.safetyFeedback] ++
            [Event.safetyCheck (st.attempt + 1) (qf (st.attempt + 1))
              (checkQuerySafety (qf (st.attempt + 1)))],
          safeQuery := st.safeQuery,
          safetyResult := some (checkQuerySafety (qf (st.attempt + 1))) }
        (hshift _ rfl)
      refine ⟨st', hrun, by simp at hat ⊢; omega, hsq, ?_⟩
      rw [hsr]
      simp only at hat ⊢
      cases fuel with
      | zero => simp
      | succ k =>
          have e1 : (Nat.succ k ≠ 0) := by omega
          have e2 : (Nat.succ k + 1 ≠ 0) := by omega
          simp only [if_neg e1, if_neg e2]
          have e3 : st.attempt + 1 + Nat.succ k = st.attempt + Nat.succ (Nat.succ k) := by
            omega
          simp only [e3]

/-! ## The claims about the safety validator and the executor rewriting -/

/-- The spec-side reading of dangerous rule (a) in claim C4: a semicolon
followed (after whitespace) by any one of the ELEVEN destructive keywords,
case-insensitively.  The source regex on safetyChecker.js line 21 covers
only seven of them; this definition follows the claim's words, to be
compared with `stackedTest`. -/
def stackedAnyDestructive : List Char → Bool
  | [] => false
  | c :: cs =>
      (c == ';' && DESTRUCTIVE_KEYWORDS.any
        (fun kw => (ciStrip kw.data (cs.dropWhile isJsSpace)).isSome)) ||
      stackedAnyDestructive cs

/-- Claim C2: for every input string, `checkQuerySafety` returns
`safe = true` iff the returned issues sequence is empty (warnings never
affect the flag); and on "SELECT * FROM users" it returns `safe = true`,
no issues, and exactly the SELECT * advisory followed by the
no-limit-clause advisory. -/
theorem claim_C2_safe_iff_issues_empty :
    (∀ s : String,
      (checkQuerySafety s).safe = true ↔ (checkQuerySafety s).issues = []) ∧
    checkQuerySafety "SELECT * FROM users" =
      { safe := true, issues := [],
        warnings := ["Using SELECT * - consider specifying columns",
                     "No LIMIT clause - query might return many rows"] } := by
  constructor
  · intro s
    rw [checkQuerySafety_safe, checkQuerySafety_issues]
    simp only [List.append_eq_nil, stmtIssues_eq_nil_iff, semiIssues_eq_nil_iff,
      kwIssues, dangIssues, collectIssues_eq_nil_iff, Bool.and_eq_true,
      Bool.not_eq_true']
  · decide

/-- Claim C3: a whole-word, case-insensitive occurrence of any destructive
keyword anywhere in the text makes `checkQuerySafety` return `safe = false`
with a distinct issue naming that keyword; an identifier that contains a
keyword only without a word boundary (the column `updated_at`) does not
trigger the corresponding issue. -/
theorem claim_C3_whole_word_keywords :
    (∀ (s kw : String), kw ∈ DESTRUCTIVE_KEYWORDS →
      wholeWordOccurs kw.data s.data →
      (checkQuerySafety s).safe = false ∧
        kwMsg kw ∈ (checkQuerySafety s).issues) ∧
    kwMsg "UPDATE" ∉ (checkQuerySafety "SELECT updated_at FROM logs").issues := by
  constructor
  · intro s kw hk hocc
    have hkne : kw.data ≠ [] := by fin_cases hk <;> decide
    have hm := wbMatch_of_wholeWordOccurs hkne hocc
    exact ⟨safe_false_of_kw s kw hk hm, mem_issues_of_kw s kw hk hm⟩
  · decide

/-- Counterexample to claim C4 as stated: "SELECT a FROM t; EXEC p" contains
a semicolon followed by the destructive keyword EXEC, yet the
stacked-statement rule produces no issue, because its regex lists only
seven of the eleven destructive keywords. -/
theorem claim_C4_counterexample :
    stackedAnyDestructive "SELECT a FROM t; EXEC p".data = true ∧
    dangMsg .stacked ∉ (checkQuerySafety "SELECT a FROM t; EXEC p").issues := by
  constructor <;> decide

/-- Claim C4 (amended): each of the dangerous patterns — with rule (a)
covering a semicolon followed by one of the seven keywords DROP, DELETE,
UPDATE, INSERT, TRUNCATE, ALTER, CREATE only (GRANT, REVOKE, EXEC and
EXECUTE are not covered), and rule (d) split into the two prefixes `xp_`
and `sp_` — contributes its own distinct blocking issue exactly when it
matches, independently of the other rules, and any match forces
`safe = false`. -/
theorem claim_C4_dangerous_patterns (s : String) (p : DangerousPattern)
    (hp : p ∈ DANGEROUS_PATTERNS) :
    (dangMsg p ∈ (checkQuerySafety s).issues ↔ p.test s.data = true) ∧
    (p.test s.data = true → (checkQuerySafety s).safe = false) :=
  ⟨dangMsg_mem_issues_iff s p hp, safe_false_of_dang s p hp⟩

/-- Witness for C4's amended theorem at a concrete input: the line-comment
rule on "SELECT a -- hidden". -/
theorem claim_C4_witness :
    (dangMsg .lineComment ∈ (checkQuerySafety "SELECT a -- hidden").issues ↔
      DangerousPattern.test .lineComment "SELECT a -- hidden".data = true) ∧
    (DangerousPattern.test .lineComment "SELECT a -- hidden".data = true →
      (checkQuerySafety "SELECT a -- hidden").safe = false) :=
  claim_C4_dangerous_patterns "SELECT a -- hidden" .lineComment (by decide)

/-- Counterexample to claim C7 as stated: "SELECT TOP 5 name FROM users" is
accepted by the safety checker and has a row-limiting clause in the sense
of safetyChecker.js lines 76-78 (it contains TOP), yet `executeQuerySafe`
does not execute it unmodified: it appends a LIMIT clause anyway, because
its check looks for the substring LIMIT only. -/
theorem claim_C7_counterexample :
    (checkQuerySafety "SELECT TOP 5 name FROM users").safe = true ∧
    hasRowLimitingClause "SELECT TOP 5 name FROM users" = true ∧
    buildSafeQuery "SELECT TOP 5 name FROM users" 100 ≠
      "SELECT TOP 5 name FROM users" := by
  refine ⟨by decide, by decide, by decide⟩

/-- Claim C7 (amended): `executeQuerySafe` decides by the substring LIMIT
alone.  If the query has no row-limiting clause at all (neither LIMIT nor
TOP), it strips a trailing semicolon from the trimmed text and appends
`` LIMIT maxRows`` before executing — this happens for every such query.
If the trimmed, uppercased text contains LIMIT, the query is executed
trimmed but otherwise unmodified; a query whose only row-limiting clause
is TOP still gets a LIMIT appended (see the counterexample). -/
theorem claim_C7_limit_appending (s : String) (maxRows : Nat) :
    (hasRowLimitingClause s = false →
      buildSafeQuery s maxRows =
        ⟨stripTrailingSemi (trimChars s.data)⟩ ++ " LIMIT " ++ toString maxRows) ∧
    (containsList "LIMIT".data ((trimChars s.data).map upChar) = true →
      buildSafeQuery s maxRows = ⟨trimChars s.data⟩) := by
  constructor
  · intro h
    simp only [hasRowLimitingClause, Bool.or_eq_false_iff] at h
    simp [buildSafeQuery, h.1]
  · intro h
    simp [buildSafeQuery, h]

/-- Claim C9: any case-insensitive occurrence of the substring `sp_` or
`xp_` — at any position, including inside a longer identifier such as a
column named `resp_time` — makes `checkQuerySafety` return `safe = false`
with the corresponding dangerous-pattern issue: the privileged-procedure
check is a bare substring match, not a whole-word or prefix match. -/
theorem claim_C9_procedure_prefix_substring :
    (∀ s : String, substrCI "sp_" s →
      (checkQuerySafety s).safe = false ∧
        dangMsg .spProc ∈ (checkQuerySafety s).issues) ∧
    (∀ s : String, substrCI "xp_" s →
      (checkQuerySafety s).safe = false ∧
        dangMsg .xpProc ∈ (checkQuerySafety s).issues) ∧
    ((checkQuerySafety "SELECT resp_time FROM metrics").safe = false ∧
      dangMsg .spProc ∈ (checkQuerySafety "SELECT resp_time FROM metrics").issues) := by
  refine ⟨?_, ?_, by decide, by decide⟩
  · intro s h
    have ht : DangerousPattern.test .spProc s.data = true := containsCI_of_substrCI h
    exact ⟨safe_false_of_dang s .spProc (by decide) ht,
      mem_issues_of_dang s .spProc (by decide) ht⟩
  · intro s h
    have ht : DangerousPattern.test .xpProc s.data = true := containsCI_of_substrCI h
    exact ⟨safe_false_of_dang s .xpProc (by decide) ht,
      mem_issues_of_dang s .xpProc (by decide) ht⟩

/-! ## The claims about the orchestrator -/

theorem loopEvent_ne_execCall {e : Event} (h : isLoopEvent e = true) :
    ∀ q n, e ≠ Event.execCall q n := by
  cases e <;> simp [isLoopEvent] at h ⊢

theorem countP_isExecCall_eq_zero {evs : List Event}
    (h : ∀ e ∈ evs, isLoopEvent e = true) : evs.countP isExecCall = 0 := by
  rw [List.countP_eq_zero]
  intro e he
  have hl := h e he
  cases e with
  | genCall a p f => simp [isExecCall]
  | safetyCheck a q v => simp [isExecCall]
  | execCall q n => simp [isLoopEvent] at hl
  | summCall q => simp [isExecCall]

theorem not_mem_of_loopEvents {evs : List Event}
    (h : ∀ e ∈ evs, isLoopEvent e = true) (q : String) (n : Nat) :
    Event.execCall q n ∉ evs := by
  intro hmem
  have := h _ hmem
  simp [isLoopEvent] at this

/-- Claim C1: in every run of `sqlQueryAgent`, the Execution Port is
invoked at most once, and only with a SQL text whose verdict — computed by
`checkQuerySafety` in that same run and recorded by a safety-check step of
the run — has `safe = true`; when no attempt of the run is found safe, the
Execution Port is never invoked and no execution outcome is produced. -/
theorem claim_C1_execution_gate (Sch : Type) (O : Oracles Sch) (question : String)
    (opts : AgentOptions) :
    ((sqlQueryAgent Sch O question opts).2.countP isExecCall ≤ 1) ∧
    (∀ sq n, Event.execCall sq n ∈ (sqlQueryAgent Sch O question opts).2 →
      (checkQuerySafety sq).safe = true ∧
      ∃ a, Event.safetyCheck a sq (checkQuerySafety sq) ∈
        (sqlQueryAgent Sch O question opts).2) ∧
    ((∀ a q v, Event.safetyCheck a q v ∈ (sqlQueryAgent Sch O question opts).2 →
        v.safe = false) →
      (∀ sq n, Event.execCall sq n ∉ (sqlQueryAgent Sch O question opts).2) ∧
      (sqlQueryAgent Sch O question opts).1.dataOut = none) := by
  cases hsch : O.schema with
  | error e =>
      simp only [sqlQueryAgent, hsch]
      refine ⟨by simp, ?_, ?_⟩
      · intro sq n h; cases h
      · intro _; exact ⟨(fun sq n h => by cases h), rfl⟩
  | ok sch =>
      simp only [sqlQueryAgent, hsch]
      obtain ⟨⟨new, hnew, hall⟩, hearly⟩ := agentLoop_events_shape O.gen
        ((opts.maxRetries - 0).toNat)
        { attempt := 0, previousQuery := none, safetyFeedback := none,
          trace := [TraceEntry.schemaExtraction true], events := [],
          safeQuery := none, safetyResult := none }
      have hcert0 := agentLoop_fell_safeCert O.gen ((opts.maxRetries - 0).toNat)
        { attempt := 0, previousQuery := none, safetyFeedback := none,
          trace := [TraceEntry.schemaExtraction true], events := [],
          safeQuery := none, safetyResult := none }
      cases hl : agentLoop O.gen ((opts.maxRetries - 0).toNat)
        { attempt := 0, previousQuery := none, safetyFeedback := none,
          trace := [TraceEntry.schemaExtraction true], events := [],
          safeQuery := none, safetyResult := none } with
      | earlyReturn r evs =>
          rw [hl] at hnew
          simp only [LoopOut.events, List.nil_append] at hnew
          subst hnew
          obtain ⟨d, tr, rfl⟩ := hearly r evs hl
          refine ⟨?_, ?_, ?_⟩
          · rw [countP_isExecCall_eq_zero hall]; omega
          · intro sq n h; exact absurd rfl (loopEvent_ne_execCall (hall _ h) sq n)
          · intro _; exact ⟨not_mem_of_loopEvents hall, rfl⟩
      | fell st =>
          rw [hl] at hnew
          simp only [LoopOut.events, List.nil_append] at hnew
          have hcert := hcert0 st hl (fun q h => by cases h)
          cases hsq : st.safeQuery with
          | none =>
              have hloopev : ∀ e ∈ st.events, isLoopEvent e = true := by
                rw [hnew]; exact hall
              cases hsr : st.safetyResult with
              | some sr =>
                  simp only [hsq, hsr]
                  refine ⟨?_, ?_, ?_⟩
                  · rw [countP_isExecCall_eq_zero hloopev]; omega
                  · intro sq n h
                    exact absurd rfl (loopEvent_ne_execCall (hloopev _ h) sq n)
                  · intro _; exact ⟨not_mem_of_loopEvents hloopev, rfl⟩
              | none =>
                  simp only [hsq, hsr]
                  refine ⟨?_, ?_, ?_⟩
                  · rw [countP_isExecCall_eq_zero hloopev]; omega
                  · intro sq n h
                    exact absurd rfl (loopEvent_ne_execCall (hloopev _ h) sq n)
                  · intro _; exact ⟨not_mem_of_loopEvents hloopev, rfl⟩
          | some sq =>
              have hloopev : ∀ e ∈ st.events, isLoopEvent e = true := by
                rw [hnew]; exact hall
              have hc : SafeCert sq st.events := hcert sq hsq
              obtain ⟨hsafe, a, hmem⟩ := hc
              simp only [hsq]
              -- the three shapes after the execution call
              cases hq : O.runQuery (buildSafeQuery sq opts.maxRows) with
              | error err =>
                  simp only [hq]
                  refine ⟨?_, ?_, ?_⟩
                  · rw [List.countP_append, countP_isExecCall_eq_zero hloopev]
                    simp [isExecCall, List.countP_cons]
                  · intro sq' n h
                    rcases List.mem_append.mp h with h | h
                    · exact absurd rfl (loopEvent_ne_execCall (hloopev _ h) sq' n)
                    · simp only [List.mem_singleton, Event.execCall.injEq] at h
                      obtain ⟨rfl, rfl⟩ := h
                      exact ⟨hsafe, a, List.mem_append_left _ hmem⟩
                  · intro H
                    exact absurd (H a sq _ (List.mem_append_left _ hmem))
                      (by rw [hsafe]; simp)
              | ok d =>
                  cases hsu : O.summ with
                  | error e2 =>
                      simp only [hq, hsu]
                      refine ⟨?_, ?_, ?_⟩
                      · rw [List.append_assoc, List.countP_append,
                          countP_isExecCall_eq_zero hloopev]
                        simp [isExecCall, List.countP_cons, List.countP_nil]
                      · intro sq' n h
                        rcases List.mem_append.mp h with h | h
                        · rcases List.mem_append.mp h with h | h
                          · exact absurd rfl (loopEvent_ne_execCall (hloopev _ h) sq' n)
                          · simp only [List.mem_singleton, Event.execCall.injEq] at h
                            obtain ⟨rfl, rfl⟩ := h
                            exact ⟨hsafe, a,
                              List.mem_append_left _ (List.mem_append_left _ hmem)⟩
                        · simp at h
                      · intro H
                        exact absurd (H a sq _
                          (List.mem_append_left _ (List.mem_append_left _ hmem)))
                          (by rw [hsafe]; simp)
                  | ok ans =>
                      simp only [hq, hsu]
                      refine ⟨?_, ?_, ?_⟩
                      · rw [List.append_assoc, List.countP_append,
                          countP_isExecCall_eq_zero hloopev]
                        simp [isExecCall, List.countP_cons, List.countP_nil]
                      · intro sq' n h
                        rcases List.mem_append.mp h with h | h
                        · rcases List.mem_append.mp h with h | h
                          · exact absurd rfl (loopEvent_ne_execCall (hloopev _ h) sq' n)
                          · simp only [List.mem_singleton, Event.execCall.injEq] at h
                            obtain ⟨rfl, rfl⟩ := h
                            exact ⟨hsafe, a,
                              List.mem_append_left _ (List.mem_append_left _ hmem)⟩
                        · simp at h
                      · intro H
                        exact absurd (H a sq _
                          (List.mem_append_left _ (List.mem_append_left _ hmem)))
                          (by rw [hsafe]; simp)

/-- A collaborator assignment whose generator always returns the same
destructive query: exercises the exhaustion path concretely. -/
def O_allRejected : Oracles Unit :=
  { schema := .ok ()
  , gen := fun _ => .ok "DROP TABLE users"
  , runQuery := fun _ => .error { message := "unreachable", code := "", detail := "" }
  , summ := .ok "ok" }

/-- Claim C5: when schema extraction succeeds, every generation call
succeeds, but the safety check fails on all `maxRetries ≥ 1` attempts, the
agent returns the exhaustion failure: a reason string distinct from the
generation-failure and execution-failure reasons, carrying
`attempts = maxRetries` and the issue list of the last verdict. -/
theorem claim_C5_refinement_exhausted (Sch : Type) (O : Oracles Sch)
    (question : String) (opts : AgentOptions) (sch : Sch) (qf : Nat → String)
    (hsch : O.schema = .ok sch) (hmr : 1 ≤ opts.maxRetries)
    (hgen : ∀ n : Nat, 1 ≤ n → (n : Int) ≤ opts.maxRetries →
      O.gen n = .ok (qf n) ∧ (checkQuerySafety (qf n)).safe = false) :
    (sqlQueryAgent Sch O question opts).1.errorString =
      some "Could not generate a safe query after multiple attempts" ∧
    (sqlQueryAgent Sch O question opts).1.attemptsOut =
      some opts.maxRetries.toNat ∧
    (sqlQueryAgent Sch O question opts).1.lastIssuesOut =
      some (checkQuerySafety (qf opts.maxRetries.toNat)).issues ∧
    "Could not generate a safe query after multiple attempts" ≠
      "Failed to generate SQL query" ∧
    "Could not generate a safe query after multiple attempts" ≠
      "Query execution failed" := by
  simp only [sqlQueryAgent, hsch]
  obtain ⟨st', hl, hat, hsq, hsr⟩ := agentLoop_all_rejected O.gen qf
    ((opts.maxRetries - 0).toNat)
    { attempt := 0, previousQuery := none, safetyFeedback := none,
      trace := [TraceEntry.schemaExtraction true], events := [],
      safeQuery := none, safetyResult := none }
    (by
      intro i hi
      have e : (0 : Nat) + 1 + i = i + 1 := by omega
      simp only
      rw [e]
      exact hgen (i + 1) (by omega) (by omega))
  have hfne : (opts.maxRetries - 0).toNat ≠ 0 := by omega
  rw [if_neg hfne] at hsr
  simp only at hsq hsr hat
  simp only [hl, hsq, hsr]
  have hattempt : st'.attempt = opts.maxRetries.toNat := by omega
  have hidx : (0 : Nat) + (opts.maxRetries - 0).toNat = opts.maxRetries.toNat := by
    omega
  rw [hidx] at hsr
  refine ⟨rfl, ?_, ?_, by decide, by decide⟩
  · simp [AgentResult.attemptsOut, hattempt]
  · simp [AgentResult.lastIssuesOut]

/-- Witness for C5 at concrete collaborators: the always-unsafe generator
with the default three retries. -/
theorem claim_C5_witness :
    (sqlQueryAgent Unit O_allRejected "q" {}).1.errorString =
      some "Could not generate a safe query after multiple attempts" ∧
    (sqlQueryAgent Unit O_allRejected "q" {}).1.attemptsOut =
      some (({} : AgentOptions).maxRetries.toNat) ∧
    (sqlQueryAgent Unit O_allRejected "q" {}).1.lastIssuesOut =
      some (checkQuerySafety "DROP TABLE users").issues ∧
    "Could not generate a safe query after multiple attempts" ≠
      "Failed to generate SQL query" ∧
    "Could not generate a safe query after multiple attempts" ≠
      "Query execution failed" :=
  claim_C5_refinement_exhausted Unit O_allRejected "q" {} ()
    (fun _ => "DROP TABLE users") rfl (by decide)
    (fun _ _ _ => ⟨rfl, by
      show (checkQuerySafety "DROP TABLE users").safe = false
      decide⟩)

/-- The retry-feedback invariant holds of the final event log of every
run. -/
theorem sqlQueryAgent_fbInv (Sch : Type) (O : Oracles Sch) (question : String)
    (opts : AgentOptions) : FbInv (sqlQueryAgent Sch O question opts).2 := by
  cases hsch : O.schema with
  | error e =>
      simp only [sqlQueryAgent, hsch]
      intro a pq fb h; cases h
  | ok sch =>
      simp only [sqlQueryAgent, hsch]
      have hinv := agentLoop_fbInv O.gen ((opts.maxRetries - 0).toNat)
        { attempt := 0, previousQuery := none, safetyFeedback := none,
          trace := [TraceEntry.schemaExtraction true], events := [],
          safeQuery := none, safetyResult := none }
        (by intro a pq fb h; cases h)
        (by intro n h; simp at h)
      cases hl : agentLoop O.gen ((opts.maxRetries - 0).toNat)
        { attempt := 0, previousQuery := none, safetyFeedback := none,
          trace := [TraceEntry.schemaExtraction true], events := [],
          safeQuery := none, safetyResult := none } with
      | earlyReturn r evs =>
          rw [hl] at hinv
          exact hinv
      | fell st =>
          rw [hl] at hinv
          simp only [LoopOut.events] at hinv
          cases hsq : st.safeQuery with
          | none =>
              cases hsr : st.safetyResult with
              | some sr => simpa [hsq, hsr] using hinv
              | none => simpa [hsq, hsr] using hinv
          | some sq =>
              simp only [hsq]
              cases hq : O.runQuery (buildSafeQuery sq opts.maxRows) with
              | error err =>
                  simp only [hq]
                  exact fbInv_append_nongen hinv (fun _ _ _ => by simp)
              | ok d =>
                  cases hsu : O.summ with
                  | error e2 =>
                      simp only [hq, hsu]
                      exact fbInv_append_nongen
                        (fbInv_append_nongen hinv (fun _ _ _ => by simp))
                        (fun _ _ _ => by simp)
                  | ok ans =>
                      simp only [hq, hsu]
                      exact fbInv_append_nongen
                        (fbInv_append_nongen hinv (fun _ _ _ => by simp))
                        (fun _ _ _ => by simp)

/-- The scenario collaborators of C6: unsafe generations on attempts 1 and
2, a safe one on attempt 3, and succeeding execution and summarization. -/
def O_scenario : Oracles Unit :=
  { schema := .ok ()
  , gen := fun n => if n == 1 then .ok "DELETE FROM users"
      else if n == 2 then .ok "DROP TABLE users"
      else .ok "SELECT id FROM users LIMIT 5"
  , runQuery := fun _ => .ok { rows := [], rowCount := 0, executionTime := "2ms" }
  , summ := .ok "There are no rows." }

/-- Claim C6: on every retry, the feedback passed to the next generation
call is exactly the issues of the immediately preceding failed verdict
joined into one string (never the warnings), and the rejected SQL text is
passed as the previous attempt; in the scenario of attempts 1 and 2 unsafe
and attempt 3 safe with `maxRetries = 3`, the run succeeds with attempt
count 3 and attempt 3's feedback equals the joined issues of attempt 2's
verdict. -/
theorem claim_C6_retry_feedback :
    (∀ (Sch : Type) (O : Oracles Sch) (question : String) (opts : AgentOptions)
      (a : Nat) (pq fb : Option String),
      Event.genCall (a + 2) pq fb ∈ (sqlQueryAgent Sch O question opts).2 →
      ∃ q, Event.safetyCheck (a + 1) q (checkQuerySafety q) ∈
          (sqlQueryAgent Sch O question opts).2 ∧
        (checkQuerySafety q).safe = false ∧ pq = some q ∧
        fb = some (String.intercalate "; " (checkQuerySafety q).issues)) ∧
    ((sqlQueryAgent Unit O_scenario "q" {}).1.errorString = none ∧
     (sqlQueryAgent Unit O_scenario "q" {}).1.attemptsOut = some 3 ∧
     Event.genCall 3 (some "DROP TABLE users")
       (some (String.intercalate "; " (checkQuerySafety "DROP TABLE users").issues)) ∈
       (sqlQueryAgent Unit O_scenario "q" {}).2) := by
  constructor
  · intro Sch O question opts a pq fb hmem
    exact sqlQueryAgent_fbInv Sch O question opts a pq fb hmem
  · refine ⟨by decide, by decide, by decide⟩

/-- Counterexample to claim C8 as stated: a run with `debug = false` whose
returned failure still includes the trace — agent.js includes `trace`
unconditionally in every failure return. -/
theorem claim_C8_counterexample :
    ({} : AgentOptions).debug = false ∧
    (sqlQueryAgent Unit O_allRejected "q" {}).1.traceOut ≠ none := by
  constructor <;> decide

/-- Claim C8 (amended): with `debug = false` the success result includes no
trace; failure results of any kind always include the trace (so the trace
is conditional on `debug` only for successful runs). -/
theorem claim_C8_trace_only_when_debug (Sch : Type) (O : Oracles Sch)
    (question : String) (opts : AgentOptions) (hdbg : opts.debug = false) :
    (∀ ans q d n w tr,
      (sqlQueryAgent Sch O question opts).1 = .success ans q d n w tr →
        tr = none) ∧
    ((sqlQueryAgent Sch O question opts).1.errorString.isSome →
      (sqlQueryAgent Sch O question opts).1.traceOut.isSome) := by
  cases hsch : O.schema with
  | error e =>
      simp only [sqlQueryAgent, hsch]
      exact ⟨(fun ans q d n w tr h => by cases h), fun _ => rfl⟩
  | ok sch =>
      simp only [sqlQueryAgent, hsch]
      obtain ⟨-, hearly⟩ := agentLoop_events_shape O.gen
        ((opts.maxRetries - 0).toNat)
        { attempt := 0, previousQuery := none, safetyFeedback := none,
          trace := [TraceEntry.schemaExtraction true], events := [],
          safeQuery := none, safetyResult := none }
      cases hl : agentLoop O.gen ((opts.maxRetries - 0).toNat)
        { attempt := 0, previousQuery := none, safetyFeedback := none,
          trace := [TraceEntry.schemaExtraction true], events := [],
          safeQuery := none, safetyResult := none } with
      | earlyReturn r evs =>
          obtain ⟨d, tr, rfl⟩ := hearly r evs hl
          exact ⟨(fun ans q d n w tr h => by cases h), fun _ => rfl⟩
      | fell st =>
          cases hsq : st.safeQuery with
          | none =>
              cases hsr : st.safetyResult with
              | some sr =>
                  simp only [hsq, hsr]
                  exact ⟨(fun ans q d n w tr h => by cases h), fun _ => rfl⟩
              | none =>
                  simp only [hsq, hsr]
                  exact ⟨(fun ans q d n w tr h => by cases h), fun _ => rfl⟩
          | some sq =>
              simp only [hsq]
              cases hq : O.runQuery (buildSafeQuery sq opts.maxRows) with
              | error err =>
                  simp only [hq]
                  exact ⟨(fun ans q d n w tr h => by cases h), fun _ => rfl⟩
              | ok d =>
                  cases hsu : O.summ with
                  | error e2 =>
                      simp only [hq, hsu]
                      exact ⟨(fun ans q d n w tr h => by cases h), fun _ => rfl⟩
                  | ok ans =>
                      simp only [hq, hsu]
                      constructor
                      · intro ans' q' d' n' w' tr' h
                        have := (AgentResult.success.injEq _ _ _ _ _ _ _ _ _ _ _ _).mp h
                        rw [← this.2.2.2.2.2, hdbg]
                        simp
                      · intro hsome
                        simp [AgentResult.errorString] at hsome

/-- Witness for C8's amended theorem at concrete collaborators. -/
theorem claim_C8_witness :
    (∀ ans q d n w tr,
      (sqlQueryAgent Unit O_allRejected "q" {}).1 = .success ans q d n w tr →
        tr = none) ∧
    ((sqlQueryAgent Unit O_allRejected "q" {}).1.errorString.isSome →
      (sqlQueryAgent Unit O_allRejected "q" {}).1.traceOut.isSome) :=
  claim_C8_trace_only_when_debug Unit O_allRejected "q" {} rfl

/-- Claim C10: with `maxRetries ≤ 0` and schema extraction succeeding, the
loop never runs and no generation call is made; the read of `.issues` on
the null verdict raises, the catch handler returns the generic failure
"Unexpected error in agent execution" carrying the trace — not the
refinement-exhausted failure. -/
theorem claim_C10_nonpositive_maxRetries (Sch : Type) (O : Oracles Sch)
    (question : String) (opts : AgentOptions) (sch : Sch)
    (hmr : opts.maxRetries ≤ 0) (hsch : O.schema = .ok sch) :
    (∀ a pq fb, Event.genCall a pq fb ∉ (sqlQueryAgent Sch O question opts).2) ∧
    (sqlQueryAgent Sch O question opts).1.errorString =
      some "Unexpected error in agent execution" ∧
    (sqlQueryAgent Sch O question opts).1.traceOut ≠ none ∧
    (∀ n li tr, (sqlQueryAgent Sch O question opts).1 ≠ .exhausted n li tr) := by
  have hfuel : (opts.maxRetries - 0).toNat = 0 := by omega
  simp only [sqlQueryAgent, hsch, hfuel, agentLoop]
  refine ⟨?_, rfl, by simp [AgentResult.traceOut], ?_⟩
  · intro a pq fb h; cases h
  · intro n li tr h; cases h

/-- Witness for C10 at concrete collaborators with `maxRetries = 0`. -/
theorem claim_C10_witness :
    (∀ a pq fb, Event.genCall a pq fb ∉
      (sqlQueryAgent Unit O_allRejected "q" { maxRetries := 0 }).2) ∧
    (sqlQueryAgent Unit O_allRejected "q" { maxRetries := 0 }).1.errorString =
      some "Unexpected error in agent execution" ∧
    (sqlQueryAgent Unit O_allRejected "q" { maxRetries := 0 }).1.traceOut ≠ none ∧
    (∀ n li tr, (sqlQueryAgent Unit O_allRejected "q" { maxRetries := 0 }).1 ≠
      .exhausted n li tr) :=
  claim_C10_nonpositive_maxRetries Unit O_allRejected "q" { maxRetries := 0 } ()
    (by decide) rfl

end SqlAgent

namespace SqlAgent

-- Sanity examples, checked during development (kept: they are theorems).
example : (checkQuerySafety "SELECT * FROM users").safe = true := by decide
example : (checkQuerySafety "SELECT * FROM users").warnings =
    ["Using SELECT * - consider specifying columns",
     "No LIMIT clause - query might return many rows"] := by decide
example : (checkQuerySafety "DELETE FROM users").issues =
    ["Query must be a SELECT statement", kwMsg "DELETE"] := by decide
example : (checkQuerySafety "SELECT updated_at FROM logs").safe = true := by decide
example : (checkQuerySafety "SELECT resp_time FROM metrics").safe = false := by decide

end SqlAgent
